import Mathlib

/-!
Verification of the merge-queue task store (Go sources under
`internal/models/task.go`, the services package, and `pkg/utils/validation.go`)
against its natural-language specification.

Modelling conventions:
* Go `string` is modelled as `List Char` (`GoStr`); `strings.TrimSpace`,
  `strings.ToLower` and `strings.Contains` become `goTrim`, `goToLower`
  and `goContains`.
* `time.Time` is modelled as a logical clock value `Nat`; every store
  operation that calls `time.Now()` receives that instant as an explicit
  `now : Nat` argument, and the two `time.Now()` calls inside a single
  operation yield the same instant.
* Go's `map[int]*Task` is modelled as a `List Task` in insertion order;
  lookup compares the `id` field.
* A Go runtime panic (out-of-range slice indexing in `applyPagination`)
  is modelled by an `Option` result: `none` means the operation panics.
* Fallible operations return `Except StoreError`, with the error
  taxonomy of the specification (`ValidationError`, `NotFoundError`,
  `CapacityError`) as constructors.
-/

namespace MergeQueue

/-- Go strings, modelled as lists of characters. -/
abbrev GoStr := List Char

/-- Model of `strings.TrimSpace`: drop leading and trailing whitespace. -/
def goTrim (s : GoStr) : GoStr :=
  ((s.dropWhile Char.isWhitespace).reverse.dropWhile Char.isWhitespace).reverse

/-- Model of `strings.ToLower`. -/
def goToLower (s : GoStr) : GoStr := s.map Char.toLower

/-- Helper for `goContains`: does `s` start with `sub`? -/
def goStartsWith : GoStr → GoStr → Bool
  | _, [] => true
  | [], _ :: _ => false
  | c :: cs, d :: ds => c == d && goStartsWith cs ds

/-- Model of `strings.Contains s sub`. -/
def goContains : GoStr → GoStr → Bool
  | [], sub => goStartsWith [] sub
  | c :: cs, sub => goStartsWith (c :: cs) sub || goContains cs sub

/-- A task record (`models.Task`). `CreatedAt`/`UpdatedAt` are logical instants. -/
structure Task where
  id : Int
  title : GoStr
  description : GoStr
  status : GoStr
  priority : GoStr
  createdAt : Nat
  updatedAt : Nat
  assignedTo : GoStr
  tags : List GoStr
deriving DecidableEq

/-- Filtering options (`models.TaskFilter`). Zero values model Go's absent fields. -/
structure TaskFilter where
  status : GoStr := []
  priority : GoStr := []
  assignedTo : GoStr := []
  tags : List GoStr := []
  limit : Int := 0
  offset : Int := 0
deriving DecidableEq

/-- A search query (`models.TaskSearchQuery`). -/
structure TaskSearchQuery where
  query : GoStr := []
  fields : List GoStr := []
  filters : TaskFilter := {}
  sortBy : GoStr := []
  sortDesc : Bool := false
deriving DecidableEq

/-- Create payload (`models.CreateTaskRequest`). -/
structure CreateTaskRequest where
  title : GoStr := []
  description : GoStr := []
  status : GoStr := []
  priority : GoStr := []
  assignedTo : GoStr := []
  tags : List GoStr := []
deriving DecidableEq

/-- Partial-update payload (`models.UpdateTaskRequest`); `none` models a nil pointer
(or nil `Tags` slice), i.e. "field not supplied". -/
structure UpdateTaskRequest where
  title : Option GoStr := none
  description : Option GoStr := none
  status : Option GoStr := none
  priority : Option GoStr := none
  assignedTo : Option GoStr := none
  tags : Option (List GoStr) := none
deriving DecidableEq

/-- The specification's error taxonomy for store operations. -/
inductive StoreError where
  | validationError (msg : GoStr)
  | notFoundError (id : Int)
  | capacityError (maxTasks : Int)
deriving DecidableEq

/-- The task store (`services.TaskService`); the mutex is a concurrency artefact
with no sequential meaning and is omitted. -/
structure TaskService where
  tasks : List Task
  nextID : Int
  maxTasks : Int
deriving DecidableEq

/-- `models.IsValidStatus`. -/
def isValidStatus (status : GoStr) : Bool :=
  ["pending".data, "in-progress".data, "completed".data, "cancelled".data].contains status

/-- `models.IsValidPriority`. -/
def isValidPriority (priority : GoStr) : Bool :=
  ["low".data, "medium".data, "high".data, "critical".data].contains priority

/-- `ValidationUtils.IsEmpty`: blank after trimming. -/
def isEmptyStr (s : GoStr) : Bool := goTrim s == []

/-- `ValidationUtils.ValidateRequired`. -/
def validateRequired (fieldName value : GoStr) : Except StoreError Unit :=
  if isEmptyStr value then .error (.validationError (fieldName ++ " is required".data))
  else .ok ()

/-- `ValidationUtils.ValidateLength`: bounds on the trimmed length; `max ≤ 0` means unbounded above. -/
def validateLength (fieldName value : GoStr) (min max : Int) : Except StoreError Unit :=
  let length : Int := (goTrim value).length
  if length < min then .error (.validationError (fieldName ++ " is too short".data))
  else if max > 0 ∧ length > max then .error (.validationError (fieldName ++ " is too long".data))
  else .ok ()

/-- The per-tag loop of `ValidationUtils.ValidateTagList`: each tag must be
non-blank and its trimmed length must not exceed `maxTagLength`. -/
def validateTags : List GoStr → Int → Except StoreError Unit
  | [], _ => .ok ()
  | tag :: rest, maxTagLength =>
    let t := goTrim tag
    if t == [] then .error (.validationError "tag is empty".data)
    else if (t.length : Int) > maxTagLength then
      .error (.validationError "tag exceeds maximum length".data)
    else validateTags rest maxTagLength

/-- `ValidationUtils.ValidateTagList`. -/
def validateTagList (tags : List GoStr) (maxTags maxTagLength : Int) : Except StoreError Unit :=
  if (tags.length : Int) > maxTags then .error (.validationError "maximum tags exceeded".data)
  else validateTags tags maxTagLength

/-- `TaskService.validateCreateRequest`. -/
def validateCreateRequest (req : CreateTaskRequest) : Except StoreError Unit :=
  match validateRequired "title".data req.title with
  | .error e => .error e
  | .ok _ =>
  match validateLength "title".data req.title 1 200 with
  | .error e => .error e
  | .ok _ =>
  match (if req.description ≠ [] then validateLength "description".data req.description 0 1000
         else (.ok () : Except StoreError Unit)) with
  | .error e => .error e
  | .ok _ =>
  if req.status ≠ [] ∧ ¬ isValidStatus req.status then
    .error (.validationError "invalid status".data)
  else if req.priority ≠ [] ∧ ¬ isValidPriority req.priority then
    .error (.validationError "invalid priority".data)
  else validateTagList req.tags 10 50

/-- `TaskService.validateUpdateRequest`. -/
def validateUpdateRequest (req : UpdateTaskRequest) : Except StoreError Unit :=
  match ((match req.title with
          | some t =>
            match validateRequired "title".data t with
            | .error e => .error e
            | .ok _ => validateLength "title".data t 1 200
          | none => .ok ()) : Except StoreError Unit) with
  | .error e => .error e
  | .ok _ =>
  match (match req.description with
         | some d => validateLength "description".data d 0 1000
         | none => .ok ()) with
  | .error e => .error e
  | .ok _ =>
  if (match req.status with | some s => !(isValidStatus s) | none => false) then
    .error (.validationError "invalid status".data)
  else if (match req.priority with | some p => !(isValidPriority p) | none => false) then
    .error (.validationError "invalid priority".data)
  else validateTagList (req.tags.getD []) 10 50

/-- `TaskService.CreateTask`: validate, enforce capacity, allocate the next ID,
stamp both timestamps with the current instant, store, and return the record. -/
def createTask (ts : TaskService) (req : CreateTaskRequest) (now : Nat) :
    Except StoreError (Task × TaskService) :=
  match validateCreateRequest req with
  | .error e => .error e
  | .ok _ =>
    if (ts.tasks.length : Int) ≥ ts.maxTasks then .error (.capacityError ts.maxTasks)
    else
      let status := if req.status == [] then "pending".data else req.status
      let priority := if req.priority == [] then "medium".data else req.priority
      let task : Task :=
        { id := ts.nextID
          title := goTrim req.title
          description := goTrim req.description
          status := status
          priority := priority
          createdAt := now
          updatedAt := now
          assignedTo := goTrim req.assignedTo
          tags := req.tags }
      .ok (task, { ts with tasks := ts.tasks ++ [task], nextID := ts.nextID + 1 })

/-- `TaskService.GetTask`. -/
def getTask (ts : TaskService) (id : Int) : Except StoreError Task :=
  match ts.tasks.find? (fun t => t.id == id) with
  | some t => .ok t
  | none => .error (.notFoundError id)

/-- The field application step of `TaskService.UpdateTask`: only supplied
fields change, and `UpdatedAt` is refreshed. -/
def applyUpdate (task : Task) (req : UpdateTaskRequest) (now : Nat) : Task :=
  { task with
    title := match req.title with | some v => goTrim v | none => task.title
    description := match req.description with | some v => goTrim v | none => task.description
    status := req.status.getD task.status
    priority := req.priority.getD task.priority
    assignedTo := match req.assignedTo with | some v => goTrim v | none => task.assignedTo
    tags := req.tags.getD task.tags
    updatedAt := now }

/-- `TaskService.UpdateTask`. -/
def updateTask (ts : TaskService) (id : Int) (req : UpdateTaskRequest) (now : Nat) :
    Except StoreError (Task × TaskService) :=
  match ts.tasks.find? (fun t => t.id == id) with
  | none => .error (.notFoundError id)
  | some task =>
    match validateUpdateRequest req with
    | .error e => .error e
    | .ok _ =>
      let task' := applyUpdate task req now
      .ok (task', { ts with tasks := ts.tasks.map (fun t => if t.id == id then task' else t) })

/-- `TaskService.DeleteTask`. -/
def deleteTask (ts : TaskService) (id : Int) : Except StoreError TaskService :=
  if ts.tasks.any (fun t => t.id == id) then
    .ok { ts with tasks := ts.tasks.filter (fun t => t.id ≠ id) }
  else .error (.notFoundError id)

/-- `TaskService.matchesFilter`, early-return style as in the source;
a `none` filter models the nil `*TaskFilter`. -/
def matchesFilter (task : Task) (filter : Option TaskFilter) : Bool :=
  match filter with
  | none => true
  | some f =>
    if f.status != [] && task.status != f.status then false
    else if f.priority != [] && task.priority != f.priority then false
    else if f.assignedTo != [] && task.assignedTo != f.assignedTo then false
    else if !f.tags.isEmpty &&
        !(f.tags.any (fun filterTag => task.tags.any (fun taskTag => taskTag == filterTag))) then
      false
    else true

/-- The field lookup inside `TaskService.matchesSearchQuery`: unknown field
names contribute no hit (the Go `default: continue`). -/
def searchFieldHit (task : Task) (searchTerm : GoStr) (field : GoStr) : Bool :=
  if field == "title".data then goContains (goToLower task.title) searchTerm
  else if field == "description".data then goContains (goToLower task.description) searchTerm
  else false

/-- `TaskService.matchesSearchQuery`: empty term matches everything; an empty
field set defaults to title and description; OR across fields. -/
def matchesSearchQuery (task : Task) (searchTerm : GoStr) (fields : List GoStr) : Bool :=
  if searchTerm == [] then true
  else
    let fields := if fields.isEmpty then ["title".data, "description".data] else fields
    fields.any (searchFieldHit task searchTerm)

/-- Insertion step for the model of `sort.Slice`: `before a b` means `a` must
come no later than `b`. -/
def insertBy (before : Task → Task → Bool) : Task → List Task → List Task
  | t, [] => [t]
  | t, x :: xs => if before t x then t :: x :: xs else x :: insertBy before t xs

/-- Insertion sort modelling `sort.Slice` with comparator `before`. -/
def sortBy : (Task → Task → Bool) → List Task → List Task
  | _, [] => []
  | before, x :: xs => insertBy before x (sortBy before xs)

/-- `TaskService.sortTasks`: sort by `CreatedAt` descending (newest first). -/
def sortTasks (tasks : List Task) : List Task :=
  sortBy (fun a b => a.createdAt > b.createdAt) tasks

/-- The `priorityOrder` map in `TaskService.sortTasksBy`; absent keys map to 0. -/
def priorityOrder (p : GoStr) : Int :=
  if p == "low".data then 1
  else if p == "medium".data then 2
  else if p == "high".data then 3
  else if p == "critical".data then 4
  else 0

/-- `TaskService.sortTasksBy`: sort by the requested key and direction; an
unknown key falls back to the default creation-time ordering. -/
def sortTasksBy (tasks : List Task) (key : GoStr) (desc : Bool) : List Task :=
  if key == "created_at".data then
    sortBy (fun a b => if desc then a.createdAt > b.createdAt else a.createdAt < b.createdAt) tasks
  else if key == "updated_at".data then
    sortBy (fun a b => if desc then a.updatedAt > b.updatedAt else a.updatedAt < b.updatedAt) tasks
  else if key == "priority".data then
    sortBy (fun a b =>
      if desc then priorityOrder a.priority > priorityOrder b.priority
      else priorityOrder a.priority < priorityOrder b.priority) tasks
  else sortTasks tasks

/-- Go slice expression `xs[lo:hi]`: `none` models the runtime panic when the
bounds are out of range. -/
def goSlice (xs : List Task) (lo hi : Int) : Option (List Task) :=
  if 0 ≤ lo ∧ lo ≤ hi ∧ hi ≤ (xs.length : Int) then
    some ((xs.drop lo.toNat).take (hi - lo).toNat)
  else none

/-- `TaskService.applyPagination`; `none` models a panic of the slice expression. -/
def applyPagination (tasks : List Task) (limit offset : Int) : Option (List Task) :=
  if offset ≥ (tasks.length : Int) then some []
  else
    goSlice tasks offset
      (if limit > 0 ∧ offset + limit < (tasks.length : Int) then offset + limit
       else (tasks.length : Int))

/-- `TaskService.GetAllTasks`: filter, default-sort, and paginate when the
filter is non-nil and sets a positive limit or offset. -/
def getAllTasks (ts : TaskService) (filter : Option TaskFilter) : Option (List Task) :=
  let tasks := ts.tasks.filter (fun t => matchesFilter t filter)
  let sorted := sortTasks tasks
  match filter with
  | some f =>
    if f.limit > 0 ∨ f.offset > 0 then applyPagination sorted f.limit f.offset
    else some sorted
  | none => some sorted

/-- `TaskService.SearchTasks`: trim and lowercase the query, keep tasks that
match both the embedded filter and the search term, then sort. -/
def searchTasks (ts : TaskService) (q : TaskSearchQuery) : List Task :=
  let searchTerm := goToLower (goTrim q.query)
  let results := ts.tasks.filter
    (fun t => matchesFilter t (some q.filters) && matchesSearchQuery t searchTerm q.fields)
  sortTasksBy results q.sortBy q.sortDesc

/-- The sample records of `TaskService.addSampleTasks`. -/
def sampleRequests : List CreateTaskRequest :=
  [ { title := "Setup project structure".data
      description := "Create basic Go project layout with proper package organization".data
      status := "completed".data
      priority := "high".data
      assignedTo := "alice".data
      tags := ["setup".data, "infrastructure".data] }
  , { title := "Implement API endpoints".data
      description := "Create REST API endpoints for task management with proper error handling".data
      status := "in-progress".data
      priority := "high".data
      assignedTo := "bob".data
      tags := ["api".data, "backend".data] }
  , { title := "Add authentication".data
      description := "Implement JWT-based authentication and authorization middleware".data
      status := "pending".data
      priority := "medium".data
      assignedTo := "charlie".data
      tags := ["auth".data, "security".data] }
  , { title := "Write documentation".data
      description := "Create comprehensive API documentation and user guides".data
      status := "pending".data
      priority := "low".data
      tags := ["docs".data, "documentation".data] } ]

/-- One seeding step of `addSampleTasks`: the error of `CreateTask` is ignored. -/
def seedTask (ts : TaskService) (req : CreateTaskRequest) (now : Nat) : TaskService :=
  match createTask ts req now with
  | .ok (_, ts') => ts'
  | .error _ => ts

/-- The store as built before seeding: empty map, counter at 1. -/
def mkTaskService (maxTasks : Int) : TaskService :=
  { tasks := [], nextID := 1, maxTasks := maxTasks }

/-- `services.NewTaskService`: construct the empty store and load the sample
seed data; `now` is the construction instant. -/
def newTaskService (maxTasks : Int) (now : Nat) : TaskService :=
  sampleRequests.foldl (fun ts req => seedTask ts req now) (mkTaskService maxTasks)

deriving instance DecidableEq for Except

/-- One mutating operation of the store's API, performed successfully. -/
inductive Step : TaskService → TaskService → Prop
  | create (req : CreateTaskRequest) (now : Nat) (t : Task) (ts ts' : TaskService) :
      createTask ts req now = .ok (t, ts') → Step ts ts'
  | update (id : Int) (req : UpdateTaskRequest) (now : Nat) (t : Task) (ts ts' : TaskService) :
      updateTask ts id req now = .ok (t, ts') → Step ts ts'
  | delete (id : Int) (ts ts' : TaskService) :
      deleteTask ts id = .ok ts' → Step ts ts'

/-- Zero or more successful mutating operations. -/
inductive StepsTo : TaskService → TaskService → Prop
  | refl (ts : TaskService) : StepsTo ts ts
  | tail (a b c : TaskService) : StepsTo a b → Step b c → StepsTo a c

/-- A store state reachable from some freshly constructed (seeded) store. -/
def Reachable (ts : TaskService) : Prop :=
  ∃ maxTasks now, StepsTo (newTaskService maxTasks now) ts

theorem stepsTo_trans {a b c : TaskService} (h₁ : StepsTo a b) (h₂ : StepsTo b c) :
    StepsTo a c := by
  induction h₂ with
  | refl => exact h₁
  | tail x y z hstep ih => exact .tail _ _ _ ih hstep

/-- Inserting with `insertBy` permutes consing. -/
theorem insertBy_perm (before : Task → Task → Bool) (t : Task) (l : List Task) :
    (insertBy before t l).Perm (t :: l) := by
  induction l with
  | nil => simp [insertBy]
  | cons x xs ih =>
    simp only [insertBy]
    split
    · exact List.Perm.refl _
    · exact (ih.cons x).trans (List.Perm.swap t x xs)

/-- The sorting model only permutes its input. -/
theorem sortBy_perm (before : Task → Task → Bool) (l : List Task) :
    (sortBy before l).Perm l := by
  induction l with
  | nil => simp [sortBy]
  | cons x xs ih => exact (insertBy_perm before x (sortBy before xs)).trans (ih.cons x)

theorem sortTasks_perm (l : List Task) : (sortTasks l).Perm l := sortBy_perm _ l

theorem sortTasksBy_perm (l : List Task) (key : GoStr) (desc : Bool) :
    (sortTasksBy l key desc).Perm l := by
  unfold sortTasksBy
  repeat' split
  all_goals exact sortBy_perm _ l

/-- Successful tag validation bounds every trimmed tag. -/
theorem validateTags_ok {tags : List GoStr} {maxTagLength : Int}
    (h : validateTags tags maxTagLength = .ok ()) :
    ∀ tag ∈ tags, goTrim tag ≠ [] ∧ ((goTrim tag).length : Int) ≤ maxTagLength := by
  induction tags with
  | nil => simp
  | cons tag rest ih =>
    simp only [validateTags] at h
    split at h
    · exact absurd h (by simp)
    · split at h
      · exact absurd h (by simp)
      · intro x hx
        rcases List.mem_cons.mp hx with hx | hx
        · subst hx
          refine ⟨by simp_all, by omega⟩
        · exact ih h x hx

/-- Successful `ValidateTagList` bounds the count and every trimmed tag. -/
theorem validateTagList_ok {tags : List GoStr} {maxTags maxTagLength : Int}
    (h : validateTagList tags maxTags maxTagLength = .ok ()) :
    (tags.length : Int) ≤ maxTags ∧
      ∀ tag ∈ tags, goTrim tag ≠ [] ∧ ((goTrim tag).length : Int) ≤ maxTagLength := by
  unfold validateTagList at h
  split at h
  · exact absurd h (by simp)
  · exact ⟨by omega, validateTags_ok h⟩

/-- A successful create validation in particular validated the tag list. -/
theorem validateCreateRequest_tags {req : CreateTaskRequest}
    (h : validateCreateRequest req = .ok ()) : validateTagList req.tags 10 50 = .ok () := by
  unfold validateCreateRequest at h
  repeat' split at h
  all_goals first | exact h | simp at h

/-- A successful update validation in particular validated the tag list. -/
theorem validateUpdateRequest_tags {req : UpdateTaskRequest}
    (h : validateUpdateRequest req = .ok ()) :
    validateTagList (req.tags.getD []) 10 50 = .ok () := by
  unfold validateUpdateRequest at h
  repeat' split at h
  all_goals first | exact h | simp at h

/-- Inversion of a successful `createTask`. -/
theorem createTask_ok_inv {ts : TaskService} {req : CreateTaskRequest} {now : Nat}
    {t : Task} {ts' : TaskService} (h : createTask ts req now = .ok (t, ts')) :
    validateCreateRequest req = .ok () ∧
    (ts.tasks.length : Int) < ts.maxTasks ∧
    t = { id := ts.nextID
          title := goTrim req.title
          description := goTrim req.description
          status := if req.status == [] then "pending".data else req.status
          priority := if req.priority == [] then "medium".data else req.priority
          createdAt := now
          updatedAt := now
          assignedTo := goTrim req.assignedTo
          tags := req.tags } ∧
    ts' = { ts with tasks := ts.tasks ++ [t], nextID := ts.nextID + 1 } := by
  unfold createTask at h
  split at h
  · exact absurd h (by simp)
  · rename_i u heq
    cases u
    split at h
    · exact absurd h (by simp)
    · simp only [Except.ok.injEq, Prod.mk.injEq] at h
      obtain ⟨ht, hts⟩ := h
      refine ⟨heq, by omega, ht.symm, ?_⟩
      rw [← hts, ← ht]

/-- Inversion of a successful `updateTask`. -/
theorem updateTask_ok_inv {ts : TaskService} {id : Int} {req : UpdateTaskRequest} {now : Nat}
    {t : Task} {ts' : TaskService} (h : updateTask ts id req now = .ok (t, ts')) :
    ∃ old, ts.tasks.find? (fun u => u.id == id) = some old ∧
      validateUpdateRequest req = .ok () ∧
      t = applyUpdate old req now ∧
      ts' = { ts with tasks := ts.tasks.map (fun u => if u.id == id then t else u) } := by
  unfold updateTask at h
  split at h
  · exact absurd h (by simp)
  · rename_i old hfind
    split at h
    · exact absurd h (by simp)
    · rename_i u heq
      cases u
      simp only [Except.ok.injEq, Prod.mk.injEq] at h
      obtain ⟨ht, hts⟩ := h
      exact ⟨old, hfind, heq, ht.symm, by rw [← hts, ← ht]⟩

/-- Decidable store check: every stored task has at most 10 tags and every
stored tag has trimmed length at most 50. -/
def tagsWithinBounds (ts : TaskService) : Bool :=
  ts.tasks.all (fun t =>
    decide (t.tags.length ≤ 10) && t.tags.all (fun tag => decide ((goTrim tag).length ≤ 50)))

theorem tagsWithinBounds_iff (ts : TaskService) :
    tagsWithinBounds ts = true ↔
      ∀ t ∈ ts.tasks, t.tags.length ≤ 10 ∧ ∀ tag ∈ t.tags, (goTrim tag).length ≤ 50 := by
  simp [tagsWithinBounds]

/-- The ID discipline: the counter strictly bounds every stored ID, and stored
IDs are pairwise distinct. -/
def IdsOK (ts : TaskService) : Prop :=
  (∀ t ∈ ts.tasks, t.id < ts.nextID) ∧ (ts.tasks.map (fun t => t.id)).Nodup

/-- What a successful tag-list validation guarantees for a create request. -/
theorem create_tags_bounded {req : CreateTaskRequest}
    (hv : validateCreateRequest req = .ok ()) :
    req.tags.length ≤ 10 ∧ ∀ tag ∈ req.tags, (goTrim tag).length ≤ 50 := by
  obtain ⟨hlen, htags⟩ := validateTagList_ok (validateCreateRequest_tags hv)
  exact ⟨by omega, fun tag htag => by have := (htags tag htag).2; omega⟩

/-- What a successful tag-list validation guarantees for an update request
that supplies tags. -/
theorem update_tags_bounded {req : UpdateTaskRequest} {l : List GoStr}
    (hv : validateUpdateRequest req = .ok ()) (hl : req.tags = some l) :
    l.length ≤ 10 ∧ ∀ tag ∈ l, (goTrim tag).length ≤ 50 := by
  have h := validateTagList_ok (validateUpdateRequest_tags hv)
  rw [hl] at h
  simp only [Option.getD_some] at h
  exact ⟨by omega, fun tag htag => by have := (h.2 tag htag).2; omega⟩
theorem deleteTask_ok_inv {ts : TaskService} {id : Int} {ts' : TaskService}
    (h : deleteTask ts id = .ok ts') :
    ts.tasks.any (fun t => t.id == id) = true ∧
    ts' = { ts with tasks := ts.tasks.filter (fun t => t.id ≠ id) } := by
  unfold deleteTask at h
  split at h
  · rename_i hc
    simp only [Except.ok.injEq] at h
    exact ⟨hc, h.symm⟩
  · exact absurd h (by simp)

/-- Every successful mutating operation preserves the tag bounds. -/
theorem tagsWithinBounds_step {a b : TaskService} (hs : Step a b)
    (h : tagsWithinBounds a = true) : tagsWithinBounds b = true := by
  rw [tagsWithinBounds_iff] at h ⊢
  cases hs with
  | create req now t ts ts' hc =>
    obtain ⟨hv, _, ht, hts⟩ := createTask_ok_inv hc
    subst hts
    intro u hu
    rcases List.mem_append.mp hu with hu | hu
    · exact h u hu
    · rw [List.mem_singleton] at hu
      subst hu
      rw [ht]
      exact create_tags_bounded hv
  | update id req now t ts ts' hup =>
    obtain ⟨old, hfind, hv, ht, hts⟩ := updateTask_ok_inv hup
    subst hts
    intro u hu
    rw [List.mem_map] at hu
    obtain ⟨v, hvmem, hveq⟩ := hu
    by_cases hid : (v.id == id) = true
    · rw [← hveq, if_pos hid, ht]
      cases htg : req.tags with
      | some l =>
        have hb := update_tags_bounded hv htg
        simpa [applyUpdate, htg] using hb
      | none =>
        have hold := h old (List.mem_of_find?_eq_some hfind)
        simpa [applyUpdate, htg] using hold
    · rw [← hveq, if_neg hid]
      exact h v hvmem
  | delete id ts ts' hd =>
    obtain ⟨_, hts⟩ := deleteTask_ok_inv hd
    subst hts
    intro u hu
    exact h u (List.mem_of_mem_filter hu)

/-- Every successful mutating operation preserves the ID discipline. -/
theorem idsOK_step {a b : TaskService} (hs : Step a b) (h : IdsOK a) : IdsOK b := by
  obtain ⟨hbound, hnodup⟩ := h
  cases hs with
  | create req now t ts ts' hc =>
    obtain ⟨_, _, ht, hts⟩ := createTask_ok_inv hc
    have htid : t.id = a.nextID := by rw [ht]
    subst hts
    constructor
    · intro u hu
      rcases List.mem_append.mp hu with hu | hu
      · have := hbound u hu
        show u.id < a.nextID + 1
        omega
      · rw [List.mem_singleton] at hu
        have : u.id = a.nextID := by rw [hu, htid]
        show u.id < a.nextID + 1
        omega
    · show ((a.tasks ++ [t]).map (fun u => u.id)).Nodup
      rw [List.map_append, List.nodup_append]
      refine ⟨hnodup, by simp, ?_⟩
      intro x hx hx'
      rw [List.mem_map] at hx
      obtain ⟨u, hu, hxeq⟩ := hx
      have hlt := hbound u hu
      simp only [List.map_cons, List.map_nil, List.mem_singleton] at hx'
      omega
  | update id req now t ts ts' hup =>
    obtain ⟨old, hfind, hv, ht, hts⟩ := updateTask_ok_inv hup
    have hid_old : old.id = id := by simpa using List.find?_some hfind
    have hfid : ∀ v : Task, (if (v.id == id) = true then t else v).id = v.id := by
      intro v
      by_cases hid : (v.id == id) = true
      · have hveq : v.id = id := by simpa using hid
        rw [if_pos hid, ht]
        show old.id = v.id
        rw [hid_old, hveq]
      · rw [if_neg hid]
    have hmap : ((a.tasks.map (fun u => if u.id == id then t else u)).map (fun u => u.id))
        = a.tasks.map (fun u => u.id) := by
      rw [List.map_map]
      exact List.map_congr_left (fun v _ => hfid v)
    subst hts
    constructor
    · intro u hu
      rw [List.mem_map] at hu
      obtain ⟨v, hvmem, hveq⟩ := hu
      have : u.id = v.id := by rw [← hveq]; exact hfid v
      show u.id < a.nextID
      rw [this]
      exact hbound v hvmem
    · show ((a.tasks.map fun u => if u.id == id then t else u).map fun u => u.id).Nodup
      rw [hmap]
      exact hnodup
  | delete id ts ts' hd =>
    obtain ⟨_, hts⟩ := deleteTask_ok_inv hd
    subst hts
    constructor
    · intro u hu
      exact hbound u (List.mem_of_mem_filter hu)
    · exact hnodup.sublist ((List.filter_sublist _).map _)

/-- The ID counter never decreases across a mutating operation. -/
theorem step_nextID_mono {a b : TaskService} (hs : Step a b) : a.nextID ≤ b.nextID := by
  cases hs with
  | create req now t ts ts' hc =>
    obtain ⟨_, _, _, hts⟩ := createTask_ok_inv hc
    subst hts
    show a.nextID ≤ a.nextID + 1
    omega
  | update id req now t ts ts' hup =>
    obtain ⟨_, _, _, _, hts⟩ := updateTask_ok_inv hup
    subst hts
    exact le_refl _
  | delete id ts ts' hd =>
    obtain ⟨_, hts⟩ := deleteTask_ok_inv hd
    subst hts
    exact le_refl _

theorem stepsTo_nextID_mono {a b : TaskService} (h : StepsTo a b) : a.nextID ≤ b.nextID := by
  induction h with
  | refl => exact le_refl _
  | tail x y z hstep ih => exact le_trans ih (step_nextID_mono hstep)

theorem tagsWithinBounds_stepsTo {a b : TaskService} (h : StepsTo a b)
    (ha : tagsWithinBounds a = true) : tagsWithinBounds b = true := by
  induction h with
  | refl => exact ha
  | tail x y z hstep ih => exact tagsWithinBounds_step hstep ih

theorem idsOK_stepsTo {a b : TaskService} (h : StepsTo a b) (ha : IdsOK a) : IdsOK b := by
  induction h with
  | refl => exact ha
  | tail x y z hstep ih => exact idsOK_step hstep ih

/-- Seeding one sample record is zero or one successful create. -/
theorem stepsTo_seedTask (ts : TaskService) (req : CreateTaskRequest) (now : Nat) :
    StepsTo ts (seedTask ts req now) := by
  unfold seedTask
  split
  · rename_i t ts' heq
    exact .tail _ _ _ (.refl _) (.create req now t ts ts' heq)
  · exact .refl _

theorem stepsTo_seed_foldl (now : Nat) (reqs : List CreateTaskRequest) (ts : TaskService) :
    StepsTo ts (reqs.foldl (fun s r => seedTask s r now) ts) := by
  induction reqs generalizing ts with
  | nil => exact .refl _
  | cons r rs ih =>
    exact stepsTo_trans (stepsTo_seedTask ts r now) (ih (seedTask ts r now))

/-- The seeded store is reachable from the unseeded one by create steps. -/
theorem newTaskService_stepsTo (maxTasks : Int) (now : Nat) :
    StepsTo (mkTaskService maxTasks) (newTaskService maxTasks now) :=
  stepsTo_seed_foldl now sampleRequests (mkTaskService maxTasks)

theorem reachable_tagsWithinBounds {ts : TaskService} (h : Reachable ts) :
    tagsWithinBounds ts = true := by
  obtain ⟨m, now, hsteps⟩ := h
  exact tagsWithinBounds_stepsTo (stepsTo_trans (newTaskService_stepsTo m now) hsteps)
    (by rfl)

theorem reachable_idsOK {ts : TaskService} (h : Reachable ts) : IdsOK ts := by
  obtain ⟨m, now, hsteps⟩ := h
  refine idsOK_stepsTo (stepsTo_trans (newTaskService_stepsTo m now) hsteps) ?_
  exact ⟨by simp [mkTaskService], by simp [mkTaskService]⟩

/-- Modelled from the claim's words for the filtering semantics: the
conjunction of all non-empty filter fields; an empty field imposes no
constraint, status/priority/assignedTo are exact matches, and the tags field
matches when the task shares at least one tag with the filter's tag set. -/
def claimFilterMatch (t : Task) (f : TaskFilter) : Bool :=
  (f.status == [] || t.status == f.status) &&
  (f.priority == [] || t.priority == f.priority) &&
  (f.assignedTo == [] || t.assignedTo == f.assignedTo) &&
  (f.tags == ([] : List GoStr) ||
    f.tags.any (fun filterTag => t.tags.any (fun taskTag => taskTag == filterTag)))

/-- The source's filter predicate coincides with the claim's conjunction. -/
theorem matchesFilter_eq_claim (t : Task) (f : TaskFilter) :
    matchesFilter t (some f) = claimFilterMatch t f := by
  simp only [matchesFilter, claimFilterMatch, bne]
  repeat' split
  all_goals simp_all
  all_goals tauto

/-- Modelled from the claim's words for C6: a task qualifies when it satisfies
the embedded filter and, unless the query string is empty, some searched field
(title and description by default) contains the query string case-insensitively. -/
def claimSearchFieldHit (t : Task) (q : GoStr) (field : GoStr) : Bool :=
  if field == "title".data then goContains (goToLower t.title) (goToLower q)
  else if field == "description".data then goContains (goToLower t.description) (goToLower q)
  else false

/-- The claim's search predicate, literally: the raw query string is matched. -/
def claimSearchMatch (t : Task) (q : TaskSearchQuery) : Bool :=
  matchesFilter t (some q.filters) &&
  (q.query == [] ||
    (if q.fields.isEmpty then ["title".data, "description".data] else q.fields).any
      (claimSearchFieldHit t q.query))

/-- The claim's search predicate amended: the query string is
whitespace-trimmed before matching, as the source does. -/
def claimSearchMatchTrimmed (t : Task) (q : TaskSearchQuery) : Bool :=
  matchesFilter t (some q.filters) &&
  (goTrim q.query == [] ||
    (if q.fields.isEmpty then ["title".data, "description".data] else q.fields).any
      (claimSearchFieldHit t (goTrim q.query)))

/-- The source's search predicate on the lowered trimmed term coincides with
the amended claim predicate. -/
theorem matchesSearchQuery_eq_claim (t : Task) (q : TaskSearchQuery) :
    (matchesFilter t (some q.filters) &&
        matchesSearchQuery t (goToLower (goTrim q.query)) q.fields)
      = claimSearchMatchTrimmed t q := by
  unfold claimSearchMatchTrimmed matchesSearchQuery
  cases hq : goTrim q.query with
  | nil => rfl
  | cons c cs => rfl

/-- A well-formed create request used as a concrete probe. -/
def simpleReq : CreateTaskRequest := { title := "first task".data }

/-- C2: the claim says no store operation ever panics, even for a `TaskFilter`
with a negative offset; but listing with limit 2 and offset -1 on the seeded
4-task store reaches the slice expression `tasks[-1:1]`, which panics at
runtime (modelled as `none`). -/
theorem getAllTasks_negative_offset_panics :
    getAllTasks (newTaskService 10 0) (some { limit := 2, offset := -1 }) = none := by decide

/-- C1 counterexample: construction with max = 1 already seeds one sample
task, so the FIRST create on the freshly constructed store fails with a
capacity error, contradicting the claim that it succeeds. -/
theorem first_create_at_capacity_fails :
    (newTaskService 1 0).tasks.length = 1 ∧
    createTask (newTaskService 1 0) simpleReq 1 =
      Except.error (StoreError.capacityError 1) := by decide

/-- C1 (amended): for a request that passes validation, create fails with a
capacity error exactly when the current task count has reached the configured
maximum; the seeded construction means a max = 1 store is already full. -/
theorem createTask_capacity_iff (ts : TaskService) (req : CreateTaskRequest) (now : Nat)
    (hv : validateCreateRequest req = Except.ok ()) :
    (createTask ts req now = Except.error (StoreError.capacityError ts.maxTasks)
      ↔ ts.maxTasks ≤ (ts.tasks.length : Int)) := by
  simp only [createTask, hv]
  by_cases hcap : (ts.tasks.length : Int) ≥ ts.maxTasks
  · rw [if_pos hcap]
    simp
    omega
  · rw [if_neg hcap]
    simp
    omega

/-- C1 witness: `createTask_capacity_iff` applied to the seeded max = 1 store. -/
theorem createTask_capacity_iff_spot :
    (createTask (newTaskService 1 0) simpleReq 5 =
        Except.error (StoreError.capacityError (newTaskService 1 0).maxTasks)
      ↔ (newTaskService 1 0).maxTasks ≤ ((newTaskService 1 0).tasks.length : Int)) :=
  createTask_capacity_iff (newTaskService 1 0) simpleReq 5 (by decide)

/-- C7: for a non-negative offset, pagination of the filtered result sequence
yields the empty sequence when the offset is at least the sequence length,
the window of `limit` elements from `offset` (clamped) when the limit is
positive, and everything from `offset` onward when the limit is non-positive;
no case is an error or a panic. -/
theorem applyPagination_window (tasks : List Task) (limit offset : Int) (hoff : 0 ≤ offset) :
    ((tasks.length : Int) ≤ offset → applyPagination tasks limit offset = some []) ∧
    (0 < limit →
      applyPagination tasks limit offset = some ((tasks.drop offset.toNat).take limit.toNat)) ∧
    (limit ≤ 0 → applyPagination tasks limit offset = some (tasks.drop offset.toNat)) := by
  unfold applyPagination
  by_cases hge : offset ≥ (tasks.length : Int)
  · rw [if_pos hge]
    have hdrop : tasks.drop offset.toNat = [] := List.drop_eq_nil_of_le (by omega)
    refine ⟨fun _ => rfl, fun _ => ?_, fun _ => ?_⟩
    · rw [hdrop, List.take_nil]
    · rw [hdrop]
  · rw [if_neg hge]
    refine ⟨fun h => absurd h (by omega), fun hpos => ?_, fun hnonpos => ?_⟩
    · by_cases hin : offset + limit < (tasks.length : Int)
      · rw [if_pos ⟨hpos, hin⟩]
        unfold goSlice
        rw [if_pos ⟨hoff, by omega, by omega⟩]
        have harith : offset + limit - offset = limit := by omega
        rw [harith]
      · rw [if_neg (fun hcon => hin hcon.2)]
        unfold goSlice
        rw [if_pos ⟨hoff, by omega, by omega⟩]
        rw [List.take_of_length_le (by rw [List.length_drop]; omega),
            List.take_of_length_le (by rw [List.length_drop]; omega)]
    · rw [if_neg (fun hcon => absurd hcon.1 (by omega))]
      unfold goSlice
      rw [if_pos ⟨hoff, by omega, by omega⟩]
      rw [List.take_of_length_le (by rw [List.length_drop]; omega)]

/-- C7 witness: listing with limit 2 and offset 3 on the seeded 4-task store
returns exactly the one remaining task. -/
theorem applyPagination_window_spot :
    applyPagination (newTaskService 10 0).tasks 2 3 =
      some (((newTaskService 10 0).tasks.drop (3 : Int).toNat).take (2 : Int).toNat) :=
  (applyPagination_window (newTaskService 10 0).tasks 2 3 (by decide)).2.1 (by decide)

/-- C10: the limit and offset of the filter embedded in a search query have no
effect on the result; search applies no pagination. -/
theorem searchTasks_ignores_pagination (ts : TaskService) (q : TaskSearchQuery) (l o : Int) :
    searchTasks ts { q with filters := { q.filters with limit := l, offset := o } }
      = searchTasks ts q := rfl

/-- A status-only filter used as a concrete probe. -/
def pendingFilter : TaskFilter := { status := "pending".data }

/-- A filter whose only non-empty field is a limit of 1. -/
def limitOneFilter : TaskFilter := { limit := 1 }

/-- C5 counterexample: a filter with limit 1 makes listing return a single
task on the seeded store although all four tasks satisfy the conjunction of
its (empty) constraint fields, so the claim does not hold for every filter. -/
theorem list_limit_drops_matching_tasks :
    (getAllTasks (newTaskService 10 0) (some limitOneFilter)).map List.length = some 1 ∧
    ((newTaskService 10 0).tasks.filter
        (fun t => claimFilterMatch t limitOneFilter)).length = 4 := by decide

/-- C5 (amended): for every filter whose pagination fields are unset
(limit and offset at most 0), listing returns exactly the tasks satisfying
the conjunction of all non-empty filter fields (up to the default
creation-time ordering, which only permutes), and the empty filter returns
all tasks. -/
theorem getAllTasks_filter_conjunction (ts : TaskService) (f : TaskFilter)
    (hl : f.limit ≤ 0) (ho : f.offset ≤ 0) :
    getAllTasks ts (some f)
        = some (sortTasks (ts.tasks.filter (fun t => claimFilterMatch t f))) ∧
    (sortTasks (ts.tasks.filter (fun t => claimFilterMatch t f))).Perm
        (ts.tasks.filter (fun t => claimFilterMatch t f)) ∧
    getAllTasks ts (some ({} : TaskFilter)) = some (sortTasks ts.tasks) ∧
    (sortTasks ts.tasks).Perm ts.tasks := by
  refine ⟨?_, sortTasks_perm _, ?_, sortTasks_perm _⟩
  · simp only [getAllTasks]
    rw [if_neg (by push_neg; exact ⟨hl, ho⟩)]
    rw [List.filter_congr (fun x _ => matchesFilter_eq_claim x f)]
  · simp only [getAllTasks]
    rw [if_neg (by simp)]
    have hq : List.filter (fun x => matchesFilter x (some ({} : TaskFilter))) ts.tasks
        = List.filter (fun _ => true) ts.tasks :=
      List.filter_congr (fun x _ => (rfl : matchesFilter x (some ({} : TaskFilter)) = true))
    rw [hq, List.filter_true]

/-- C5 witness: `getAllTasks_filter_conjunction` at the seeded store with a
status filter for "pending". -/
theorem getAllTasks_filter_conjunction_spot :
    getAllTasks (newTaskService 10 0) (some pendingFilter)
        = some (sortTasks ((newTaskService 10 0).tasks.filter
            (fun t => claimFilterMatch t pendingFilter))) ∧
    (sortTasks ((newTaskService 10 0).tasks.filter
        (fun t => claimFilterMatch t pendingFilter))).Perm
        ((newTaskService 10 0).tasks.filter (fun t => claimFilterMatch t pendingFilter)) ∧
    getAllTasks (newTaskService 10 0) (some ({} : TaskFilter))
        = some (sortTasks (newTaskService 10 0).tasks) ∧
    (sortTasks (newTaskService 10 0).tasks).Perm (newTaskService 10 0).tasks :=
  getAllTasks_filter_conjunction (newTaskService 10 0) pendingFilter (by decide) (by decide)

/-- A search query whose trailing whitespace separates the source's behaviour
from the claim's literal reading. -/
def trimCexQuery : TaskSearchQuery := { query := "organization ".data }

/-- C6 counterexample: searching the seeded store for "organization " (with a
trailing blank) returns one task, although no task's searched fields contain
that raw query string case-insensitively — the source trims the query first. -/
theorem search_returns_nonmatching_task :
    (searchTasks (newTaskService 10 0) trimCexQuery).length = 1 ∧
    ((newTaskService 10 0).tasks.filter
        (fun t => claimSearchMatch t trimCexQuery)).length = 0 := by decide

/-- C6 (amended): search returns exactly the tasks that satisfy the embedded
filter and whose searched fields (title and description by default) contain
the whitespace-trimmed query string as a case-insensitive substring, a hit in
any single searched field qualifying and a blank query matching every task
(up to the requested ordering, which only permutes). -/
theorem searchTasks_exact_trimmed (ts : TaskService) (q : TaskSearchQuery) :
    (searchTasks ts q).Perm (ts.tasks.filter (fun t => claimSearchMatchTrimmed t q)) := by
  simp only [searchTasks]
  rw [List.filter_congr (fun x _ => matchesSearchQuery_eq_claim x q)]
  exact sortTasksBy_perm _ _ _

/-- A create request whose single tag trims to 50 characters but is stored
with raw length 51. -/
def longTagReq : CreateTaskRequest :=
  { title := "tagged".data, tags := [List.replicate 50 'a' ++ [' ']] }

def longTagPair : Task × TaskService :=
  match createTask (newTaskService 100 0) longTagReq 3 with
  | .ok p => p
  | .error _ => (⟨0, [], [], [], [], 0, 0, [], []⟩, mkTaskService 0)

/-- C8 counterexample: a reachable store holds a tag of raw length 51,
because validation bounds the trimmed length but the raw tag is stored. -/
theorem stored_tag_exceeds_length :
    Reachable longTagPair.2 ∧
    longTagPair.2.tasks.any
      (fun t => t.tags.any (fun tag => decide (50 < tag.length))) = true := by
  constructor
  · exact ⟨100, 0, .tail _ _ _ (.refl _)
      (.create longTagReq 3 longTagPair.1 (newTaskService 100 0) longTagPair.2 (by decide))⟩
  · decide

/-- C8 (amended): in every reachable store state, every stored task has at
most 10 tags and every stored tag string has whitespace-trimmed length at
most 50 characters (the raw stored tag may be longer, as tags are stored
untrimmed). -/
theorem reachable_tags_within_bounds (ts : TaskService) (h : Reachable ts) :
    tagsWithinBounds ts = true := reachable_tagsWithinBounds h

/-- C8 witness: the bounds hold at a freshly constructed store. -/
theorem reachable_tags_within_bounds_spot :
    tagsWithinBounds (newTaskService 3 0) = true :=
  reachable_tags_within_bounds (newTaskService 3 0) ⟨3, 0, .refl _⟩

/-- C9: in every reachable store state the next-ID counter strictly bounds
every stored ID, stored IDs are pairwise distinct, a successful create assigns
exactly the counter value (strictly above every stored ID) and advances the
counter, the counter never decreases along any sequence of operations, and
after a successful delete of an ID no later create ever assigns that ID again. -/
theorem ids_unique_monotonic (ts : TaskService) (h : Reachable ts) :
    (∀ t ∈ ts.tasks, t.id < ts.nextID) ∧
    ((ts.tasks.map (fun t => t.id)).Nodup) ∧
    (∀ req now t ts', createTask ts req now = Except.ok (t, ts') →
        t.id = ts.nextID ∧ ts'.nextID = ts.nextID + 1 ∧ ∀ u ∈ ts.tasks, u.id < t.id) ∧
    (∀ ts', StepsTo ts ts' → ts.nextID ≤ ts'.nextID) ∧
    (∀ id ts', deleteTask ts id = Except.ok ts' →
        ∀ ts'' req now t ts''', StepsTo ts' ts'' →
          createTask ts'' req now = Except.ok (t, ts''') → t.id ≠ id) := by
  obtain ⟨hbound, hnodup⟩ := reachable_idsOK h
  refine ⟨hbound, hnodup, ?_, ?_, ?_⟩
  · intro req now t ts' hc
    obtain ⟨_, _, ht, hts⟩ := createTask_ok_inv hc
    have htid : t.id = ts.nextID := by rw [ht]
    refine ⟨htid, by rw [hts], ?_⟩
    intro u hu
    rw [htid]
    exact hbound u hu
  · intro ts' hsteps
    exact stepsTo_nextID_mono hsteps
  · intro id ts' hd ts'' req now t ts''' hsteps hc
    obtain ⟨hmem, hts'⟩ := deleteTask_ok_inv hd
    rw [List.any_eq_true] at hmem
    obtain ⟨u, hu, huid⟩ := hmem
    have huid' : u.id = id := by simpa using huid
    have h1 : id < ts.nextID := huid' ▸ hbound u hu
    have h2 : ts'.nextID = ts.nextID := by rw [hts']
    have h3 : ts'.nextID ≤ ts''.nextID := stepsTo_nextID_mono hsteps
    obtain ⟨_, _, ht, _⟩ := createTask_ok_inv hc
    have htid : t.id = ts''.nextID := by rw [ht]
    omega

/-- C9 witness: the stored IDs of a freshly constructed store are distinct. -/
theorem ids_unique_monotonic_spot :
    ((newTaskService 5 0).tasks.map (fun t => t.id)).Nodup :=
  (ids_unique_monotonic (newTaskService 5 0) ⟨5, 0, .refl _⟩).2.1

/-- When a predicate fails on every element of the first list, `find?` over
the concatenation searches the second. -/
theorem find?_append_left_none {p : Task → Bool} {l₁ l₂ : List Task}
    (h : ∀ u ∈ l₁, p u = false) : (l₁ ++ l₂).find? p = l₂.find? p := by
  induction l₁ with
  | nil => rfl
  | cons x xs ih =>
    rw [List.cons_append,
        List.find?_cons_of_neg _ (by simp [h x (List.mem_cons_self x xs)])]
    exact ih (fun u hu => h u (List.mem_cons_of_mem x hu))

/-- C3: a successful create followed by a get of the returned ID yields the
created record, whose title, description and assignee are the trimmed request
fields, whose status and priority are the request fields defaulted to
"pending"/"medium" when empty, whose tags equal the request's tags, and whose
creation and update instants coincide. -/
theorem create_get_roundtrip (ts : TaskService) (req : CreateTaskRequest) (now : Nat)
    (t : Task) (ts' : TaskService) (hr : Reachable ts)
    (h : createTask ts req now = Except.ok (t, ts')) :
    getTask ts' t.id = Except.ok t ∧
    t.title = goTrim req.title ∧
    t.description = goTrim req.description ∧
    t.assignedTo = goTrim req.assignedTo ∧
    t.status = (if req.status == [] then "pending".data else req.status) ∧
    t.priority = (if req.priority == [] then "medium".data else req.priority) ∧
    t.tags = req.tags ∧
    t.createdAt = t.updatedAt := by
  obtain ⟨hbound, _⟩ := reachable_idsOK hr
  obtain ⟨_, _, ht, hts⟩ := createTask_ok_inv h
  have htid : t.id = ts.nextID := by rw [ht]
  refine ⟨?_, by rw [ht], by rw [ht], by rw [ht], by rw [ht], by rw [ht], by rw [ht],
    by rw [ht]⟩
  unfold getTask
  rw [hts]
  show (match (ts.tasks ++ [t]).find? (fun u => u.id == t.id) with
        | some u => Except.ok u
        | none => Except.error (StoreError.notFoundError t.id)) = Except.ok t
  rw [find?_append_left_none (fun u hu => ?_)]
  · rw [List.find?_cons_of_pos _ (by simp)]
  · have := hbound u hu
    simp only [htid, beq_eq_false_iff_ne, ne_eq]
    omega

/-- A create request with untrimmed whitespace used to witness the round trip. -/
def roundReq : CreateTaskRequest :=
  { title := "  Polish UI  ".data
    description := " refine layout ".data
    assignedTo := " dana ".data
    tags := ["ui".data, "frontend".data] }

def roundPair : Task × TaskService :=
  match createTask (newTaskService 10 0) roundReq 7 with
  | .ok p => p
  | .error _ => (⟨0, [], [], [], [], 0, 0, [], []⟩, mkTaskService 0)

/-- C3 witness: the round trip at a concrete request on the seeded store. -/
theorem create_get_roundtrip_spot :
    getTask roundPair.2 roundPair.1.id = Except.ok roundPair.1 ∧
    roundPair.1.title = goTrim roundReq.title ∧
    roundPair.1.description = goTrim roundReq.description ∧
    roundPair.1.assignedTo = goTrim roundReq.assignedTo ∧
    roundPair.1.status = (if roundReq.status == [] then "pending".data else roundReq.status) ∧
    roundPair.1.priority =
      (if roundReq.priority == [] then "medium".data else roundReq.priority) ∧
    roundPair.1.tags = roundReq.tags ∧
    roundPair.1.createdAt = roundPair.1.updatedAt :=
  create_get_roundtrip (newTaskService 10 0) roundReq 7 roundPair.1 roundPair.2
    ⟨10, 0, .refl _⟩ (by decide)

/-- An update request supplying only a title. -/
def titleOnly (x : GoStr) : UpdateTaskRequest := { title := some x }

/-- C4: a successful title-only update rewrites exactly the found task's title
(trimmed) and update instant, leaves its other fields and every other stored
task unchanged, leaves the counter and capacity unchanged, and never decreases
the task's update instant when the clock does not run backwards. -/
theorem update_title_only_partial (ts : TaskService) (id : Int) (x : GoStr) (now : Nat)
    (t : Task) (ts' : TaskService) (old : Task)
    (hfind : ts.tasks.find? (fun u => u.id == id) = some old)
    (h : updateTask ts id (titleOnly x) now = Except.ok (t, ts')) :
    t = { old with title := goTrim x, updatedAt := now } ∧
    ts'.tasks = ts.tasks.map (fun u => if u.id == id then t else u) ∧
    ts'.nextID = ts.nextID ∧
    ts'.maxTasks = ts.maxTasks ∧
    ts.tasks.all (fun u => u.id == id || decide (u ∈ ts'.tasks)) = true ∧
    (old.updatedAt ≤ now → old.updatedAt ≤ t.updatedAt) := by
  obtain ⟨old', hfind', hv, ht, hts⟩ := updateTask_ok_inv h
  rw [hfind] at hfind'
  injection hfind' with hold
  subst hold
  have ht' : t = { old with title := goTrim x, updatedAt := now } := ht
  refine ⟨ht', by rw [hts], by rw [hts], by rw [hts], ?_, ?_⟩
  · rw [List.all_eq_true]
    intro u hu
    by_cases hid : (u.id == id) = true
    · simp [hid]
    · simp only [hid, Bool.false_or, decide_eq_true_iff]
      rw [hts]
      show u ∈ ts.tasks.map (fun v => if v.id == id then t else v)
      rw [List.mem_map]
      exact ⟨u, hu, by rw [if_neg hid]⟩
  · intro hle
    have : t.updatedAt = now := by rw [ht']
    omega

def updPair : Task × TaskService :=
  match updateTask (newTaskService 10 0) 1 (titleOnly " New title ".data) 9 with
  | .ok p => p
  | .error _ => (⟨0, [], [], [], [], 0, 0, [], []⟩, mkTaskService 0)

def seededOld : Task :=
  ((newTaskService 10 0).tasks.find? (fun u => u.id == 1)).getD
    ⟨0, [], [], [], [], 0, 0, [], []⟩

/-- C4 witness: a concrete title-only update of task 1 on the seeded store. -/
theorem update_title_only_partial_spot :
    updPair.1 = { seededOld with title := goTrim " New title ".data, updatedAt := 9 } ∧
    updPair.2.tasks = (newTaskService 10 0).tasks.map
      (fun u => if u.id == 1 then updPair.1 else u) ∧
    updPair.2.nextID = (newTaskService 10 0).nextID ∧
    updPair.2.maxTasks = (newTaskService 10 0).maxTasks ∧
    (newTaskService 10 0).tasks.all
      (fun u => u.id == 1 || decide (u ∈ updPair.2.tasks)) = true ∧
    (seededOld.updatedAt ≤ 9 → seededOld.updatedAt ≤ updPair.1.updatedAt) :=
  update_title_only_partial (newTaskService 10 0) 1 " New title ".data 9
    updPair.1 updPair.2 seededOld (by decide) (by decide)

end MergeQueue
